import Mathlib

/-!
Verification of the boardfarm utility, networking, device-driver and plugin
code against its natural-language specification.  Python strings are modelled
as lists of characters, Python exceptions as an `Except` error type, and the
relevant functions are translated one-to-one from the Python sources in
`boardfarm3/lib/utils.py`, `boardfarm3/lib/networking.py`,
`boardfarm3/devices/linux_wan.py`, `boardfarm/plugins/core.py` and
`boardfarm/dbclients/influx_wrapper.py`.
-/

/-- Kinds of Python exception that the embedded code can raise. -/
inductive PyError where
  | typeError
  | addressValueError
  | indexError
  | valueError
  | attributeError
  deriving DecidableEq, Repr

/-- A Python string, modelled as its list of characters. -/
abbrev PyString := List Char

/-- Convert a Lean string literal into the Python string model. -/
def pyStr (s : String) : PyString := s.toList

/-- Does `pat` occur at the start of `s`?  (Python `str.startswith`.) -/
def pyStartsWith (s pat : PyString) : Bool :=
  match s, pat with
  | _, [] => true
  | [], _ :: _ => false
  | c :: s, p :: ps => p == c && pyStartsWith s ps

/-- Locate the first occurrence of `sep` in `s`, returning the text before and
after it.  `none` when `sep` does not occur. -/
def findSep (sep : PyString) : PyString → Option (PyString × PyString)
  | [] => none
  | c :: rest =>
    if pyStartsWith (c :: rest) sep then some ([], (c :: rest).drop sep.length)
    else
      match findSep sep rest with
      | some (pre, post) => some (c :: pre, post)
      | none => none

/-- Python `str.split(sep)` (fuel-based recursion; fuel `s.length + 1` always
suffices for a non-empty separator). -/
def pySplitAux (sep : PyString) : Nat → PyString → List PyString
  | 0, s => [s]
  | fuel + 1, s =>
    match findSep sep s with
    | none => [s]
    | some (pre, post) => pre :: pySplitAux sep fuel post

/-- Python `str.split(sep)` for a non-empty separator: the list of segments
between occurrences of `sep`, empty segments kept. -/
def pySplit (sep s : PyString) : List PyString := pySplitAux sep (s.length + 1) s

/-- Python `sep.join(parts)`. -/
def pyJoin (sep : PyString) : List PyString → PyString
  | [] => []
  | [t] => t
  | t :: u :: ts => t ++ sep ++ pyJoin sep (u :: ts)

/-- Python `s.replace(old, new)` (all occurrences), via the standard
`new.join(s.split(old))` identity. -/
def pyReplace (old new s : PyString) : PyString := pyJoin new (pySplit old s)

/-- Python `str.lower` (ASCII model). -/
def pyLower (s : PyString) : PyString := s.map Char.toLower

/-- Python `str.strip()` with no argument: drop whitespace from both ends. -/
def pyStrip (s : PyString) : PyString :=
  ((s.dropWhile Char.isWhitespace).reverse.dropWhile Char.isWhitespace).reverse

/-- Python `str.isdigit` (ASCII model): non-empty and all digits. -/
def pyIsDigit (s : PyString) : Bool := !s.isEmpty && s.all Char.isDigit

/-- Python `int(s)` for a string of decimal digits. -/
def pyInt (s : PyString) : Nat := s.foldl (fun acc c => acc * 10 + (c.toNat - 48)) 0

/-- Python list indexing `l[i]`: negative indices count from the end and
out-of-range access raises `IndexError`. -/
def pyIndex {α : Type} (l : List α) (i : Int) : Except PyError α :=
  let j : Int := if i < 0 then i + l.length else i
  if h : 0 ≤ j ∧ j.toNat < l.length then .ok (l.get ⟨j.toNat, h.2⟩)
  else .error .indexError

/-- Python `sub in s` for strings: substring containment. -/
def pyContains (sub s : PyString) : Bool := (findSep sub s).isSome

/-- The largest IPv4 address, as an unsigned integer.  `ipaddress.IPv4Address`
raises `AddressValueError` when arithmetic leaves this range. -/
def ipv4Max : Nat := 2 ^ 32 - 1

/-- `ip_pool_to_list(start_ip, end_ip)` from `boardfarm3/lib/utils.py`:
the loop `while end_ip >= start_ip and start_ip != end_ip + 1` appends
`start_ip` and increments it.  Whenever the first conjunct holds the loop
condition computes `end_ip + 1`, which raises `AddressValueError` when
`end_ip` is the maximal IPv4 address. -/
def ip_pool_to_list (start_ip end_ip : Nat) : Except PyError (List Nat) :=
  if h : start_ip ≤ end_ip then
    if ipv4Max < end_ip + 1 then .error .addressValueError
    else if start_ip = end_ip + 1 then .ok []
    else
      match ip_pool_to_list (start_ip + 1) end_ip with
      | .ok rest => .ok (start_ip :: rest)
      | .error e => .error e
  else .ok []
termination_by end_ip + 1 - start_ip
decreasing_by omega

/-- A Python runtime value, as far as `retry`'s truthiness test needs one. -/
inductive PyVal where
  | none
  | bool (b : Bool)
  | int (n : Int)
  | str (s : PyString)
  deriving DecidableEq, Repr

/-- Python truthiness of the modelled values. -/
def PyVal.truthy : PyVal → Bool
  | .none => false
  | .bool b => b
  | .int n => n != 0
  | .str s => !s.isEmpty

/-- An attempt of `retry` counts as a failure when its value is falsy or equal
to the literal string `"False"` (the negation of the test
`if output and output != "False"`). -/
def isRetryFailure (v : PyVal) : Bool := !(v.truthy && v != PyVal.str (pyStr "False"))

/-- The loop of `retry` from `boardfarm3/lib/utils.py`: `k` remaining loop
iterations of `for _ in range(max_retry - 1)`, then one final unconditional
call.  `calls` counts the calls already made; the function under retry is
modelled as the sequence of values it returns on successive calls.  Returns
the value `retry` returns together with the total number of calls made. -/
def retryAux (func_name : Nat → PyVal) : Nat → Nat → PyVal × Nat
  | 0, calls => (func_name calls, calls + 1)
  | k + 1, calls =>
    let output := func_name calls
    if output.truthy && output != PyVal.str (pyStr "False") then (output, calls + 1)
    else retryAux func_name k (calls + 1)

/-- `retry(func_name, max_retry)` from `boardfarm3/lib/utils.py`, with the
function's successive return values given as a sequence.  The `time.sleep(5)`
between attempts has no effect on the returned value and is dropped. -/
def retry (func_name : Nat → PyVal) (max_retry : Nat) : PyVal × Nat :=
  retryAux func_name (max_retry - 1) 0

/-- The concrete retried function of the claim: falsy on its first two calls,
truthy (the integer 7) on the third. -/
def retryWitnessFn (call : Nat) : PyVal := if call < 2 then .bool false else .int 7

/-- Modelled from the spec: the external structured-output parser component
(`boardfarm3.lib.parsers.iptables_parser.IptablesParser`, outside this source
tree).  Only its entry point `ip6tables`, taking raw command output to a
chain-to-rule-list mapping, is relevant here; the mapping type is kept
abstract. -/
structure IptablesParser (α : Type) where
  ip6tables : PyString → α

/-- The `IptablesFirewall` class from `boardfarm3/lib/networking.py`.  The
console's `execute_command` is modelled as a function from command text to
output text; the parser instance the methods construct is supplied as a field
of the model. -/
structure IptablesFirewall (α : Type) where
  execute_command : PyString → PyString
  parser : IptablesParser α

/-- `IptablesFirewall.get_iptables_list`: runs `iptables <opts> <extra_opts>`
and parses the output with the parser's `ip6tables` entry point. -/
def get_iptables_list {α : Type} (fw : IptablesFirewall α)
    (opts extra_opts : PyString) : α :=
  fw.parser.ip6tables
    (fw.execute_command (pyStr "iptables " ++ opts ++ pyStr " " ++ extra_opts))

/-- `IptablesFirewall.get_ip6tables_list`: runs `ip6tables <opts> <extra_opts>`
and parses the output with the parser's `ip6tables` entry point. -/
def get_ip6tables_list {α : Type} (fw : IptablesFirewall α)
    (opts extra_opts : PyString) : α :=
  fw.parser.ip6tables
    (fw.execute_command (pyStr "ip6tables " ++ opts ++ pyStr " " ++ extra_opts))

/-- A concrete firewall instance for the C8 witness: a constant console and a
parser model returning the raw text. -/
def c8WitnessFirewall : IptablesFirewall PyString :=
  { execute_command := fun _ => pyStr "Chain INPUT (policy ACCEPT)",
    parser := { ip6tables := fun s => s } }

/-- The setup flags set by `LinuxWAN.__init__` in
`boardfarm3/devices/linux_wan.py`. -/
structure WanState where
  static_route : PyString
  wan_dhcp : Bool
  wan_no_eth0 : Bool
  wan_dhcp_server : Bool
  wan_dhcpv6 : Bool
  deriving DecidableEq, Repr

/-- The field values assigned by `LinuxWAN.__init__`. -/
def initWanState : WanState :=
  { static_route := [], wan_dhcp := false, wan_no_eth0 := false,
    wan_dhcp_server := false, wan_dhcpv6 := false }

/-- One directive of the `options` grammar of `LinuxWAN._setup_wan`: the
`if`/`elif` chain over a stripped option, returning the updated state and the
console commands issued.  The address text normalisation performed by
`ipaddress.IPv4Interface`/`IPv6Interface` (standard library) is modelled as
the identity on the address text; it affects only command text, not state. -/
def applyWanOption (iface : PyString) (st : WanState) (opt : PyString) :
    WanState × List PyString :=
  let routeVal :=
    pyReplace (pyStr "-") (pyStr " via ") (pyReplace (pyStr "wan-static-route:") [] opt)
  if pyStartsWith opt (pyStr "wan-static-route:") then
    ({ st with static_route := routeVal }, [])
  else if opt == pyStr "wan-dhcp-client" then ({ st with wan_dhcp := true }, [])
  else if opt == pyStr "wan-no-eth0" then ({ st with wan_no_eth0 := true }, [])
  else if opt == pyStr "wan-no-dhcp-server" then
    ({ st with wan_dhcp_server := false }, [])
  else if opt == pyStr "wan-dhcp-client-v6" then ({ st with wan_dhcpv6 := true }, [])
  else if pyStartsWith opt (pyStr "wan-static-ipv6:") then
    (st,
      [pyStr "sysctl -w net.ipv6.conf." ++ iface ++ pyStr ".accept_dad=0",
       pyStr "ip -6 addr del " ++ pyReplace (pyStr "wan-static-ipv6:") [] opt ++
         pyStr " dev " ++ iface,
       pyStr "ip -6 addr add " ++ pyReplace (pyStr "wan-static-ipv6:") [] opt ++
         pyStr " dev " ++ iface])
  else if pyStartsWith opt (pyStr "wan-static-ip:") then
    (st,
      [pyStr "ip -4 addr del " ++ pyReplace (pyStr "wan-static-ip:") [] opt ++
         pyStr " dev " ++ iface,
       pyStr "ip -4 addr add " ++ pyReplace (pyStr "wan-static-ip:") [] opt ++
         pyStr " dev " ++ iface])
  else (st, [])

/-- Fold of `applyWanOption` over the directive list, accumulating issued
commands. -/
def applyWanOptions (iface : PyString) (acc : WanState × List PyString) :
    List PyString → WanState × List PyString
  | [] => acc
  | opt :: rest =>
    applyWanOptions iface
      ((applyWanOption iface acc.1 opt).1, acc.2 ++ (applyWanOption iface acc.1 opt).2)
      rest

/-- The final static-route pass of `_setup_wan`: for each `;`-separated route
clause, delete any route matching the text before `via`, then add the full
clause. -/
def staticRouteCommands (static_route : PyString) : List PyString :=
  if static_route != [] then
    (pySplit (pyStr ";") static_route).foldr
      (fun route acc =>
        (pyStr "ip route del " ++ (pySplit (pyStr "via") route).headI) ::
          (pyStr "ip route add " ++ route) :: acc) []
  else []

/-- `LinuxWAN._setup_wan`: a no-op when the device configuration has no
`options` key; otherwise cycles the DUT-facing interface, interprets each
comma-separated, whitespace-stripped directive, and finally applies any
recorded static route. -/
def setup_wan (iface : PyString) (config_options : Option PyString)
    (st : WanState) : WanState × List PyString :=
  match config_options with
  | none => (st, [])
  | some optstr =>
    let cmds := [pyStr "ifconfig " ++ iface ++ pyStr " down",
                 pyStr "ifconfig " ++ iface ++ pyStr " up"]
    let r := applyWanOptions iface (st, cmds) ((pySplit (pyStr ",") optstr).map pyStrip)
    (r.1, r.2 ++ staticRouteCommands r.1.static_route)

/-- `get_pytest_name()` from `boardfarm3/lib/utils.py`, with the value of the
`PYTEST_CURRENT_TEST` environment variable as input (`none` when unset, in
which case calling `.split` on `None` raises `AttributeError`).  The code
evaluates `split(" (setup)")[0]`, then `split("::")[1]`, then replaces every
space with an underscore. -/
def get_pytest_name (pytest_current_test : Option PyString) :
    Except PyError PyString :=
  match pytest_current_test with
  | none => .error .attributeError
  | some s =>
    match pySplit (pyStr " (setup)") s with
    | [] => .error .indexError
    | first :: _ =>
      match pySplit (pyStr "::") first with
      | _ :: seg :: _ => .ok (pyReplace (pyStr " ") (pyStr "_") seg)
      | _ => .error .indexError

mutual

/-- A nested Python value as stored in a configuration dictionary: `None`,
scalars, or a nested dictionary. -/
inductive PyObj where
  | none
  | int (n : Int)
  | str (s : PyString)
  | dict (d : PyDict)

/-- A Python dictionary in iteration order: a sequence of key/value entries. -/
inductive PyDict where
  | nil
  | cons (key : PyString) (value : PyObj) (rest : PyDict)

end

/-- The Python identity test `value is None`. -/
def PyObj.isNone : PyObj → Bool
  | .none => true
  | _ => false

/-- `get_value_from_dict(key, dictionary)` from `boardfarm3/lib/utils.py`:
iterate the entries in order; a matching key returns its value; a dictionary
value is searched recursively and a non-`None` result is returned; otherwise
the iteration continues; `None` when nothing matched. -/
def get_value_from_dict (key : PyString) : PyDict → PyObj
  | .nil => .none
  | .cons name value rest =>
    if name = key then value
    else
      match value with
      | .dict d =>
        match get_value_from_dict key d with
        | .none => get_value_from_dict key rest
        | rv => rv
      | _ => get_value_from_dict key rest

mutual

/-- The entries of a nested dictionary in depth-first, iteration-order
traversal (each entry followed by the entries of its value), as described by
the spec's words for `get_value_from_dict`. -/
def preorderEntries : PyDict → List (PyString × PyObj)
  | .nil => []
  | .cons key value rest => (key, value) :: (preorderEntriesObj value ++ preorderEntries rest)

/-- The traversal of a value: only dictionary values contribute entries. -/
def preorderEntriesObj : PyObj → List (PyString × PyObj)
  | .dict d => preorderEntries d
  | _ => []

end

/-- The spec-side reading of the claim: the value of the first entry in the
depth-first traversal whose key equals `key`. -/
def specFirstMatch (key : PyString) (d : PyDict) : Option PyObj :=
  ((preorderEntries d).find? (fun e => e.1 == key)).map (fun e => e.2)

mutual

/-- No value stored anywhere in the dictionary is `None`. -/
def PyDict.noNoneValues : PyDict → Bool
  | .nil => true
  | .cons _ value rest => value.deepNotNone && rest.noNoneValues

/-- A value is not `None`, and a dictionary value stores no `None` anywhere. -/
def PyObj.deepNotNone : PyObj → Bool
  | .none => false
  | .dict d => d.noNoneValues
  | _ => true

end

/-- The counterexample dictionary for C6:
`{"a": {"x": None}, "x": 5}`. -/
def c6CexDict : PyDict :=
  .cons (pyStr "a") (.dict (.cons (pyStr "x") .none .nil))
    (.cons (pyStr "x") (.int 5) .nil)

/-- The witness dictionary for C6: `{"a": {"b": {"x": 5}}}`. -/
def c6WitnessDict : PyDict :=
  .cons (pyStr "a") (.dict (.cons (pyStr "b") (.dict (.cons (pyStr "x") (.int 5) .nil)) .nil)) .nil

/-- An address entry in the DNS book: either address text (a Python `str`) or
an `IPv4Address`/`IPv6Address` object, which the code stores unconverted. -/
inductive Addr where
  | str (s : PyString)
  | ipv4 (n : Nat)
  | ipv6 (n : Nat)
  deriving DecidableEq, Repr

/-- A decimal digit character. -/
def digitChar (d : Nat) : Char := Char.ofNat (48 + d)

/-- Decimal rendering of a natural number (fuel-based). -/
def natDigitsAux : Nat → Nat → PyString
  | 0, _ => []
  | fuel + 1, n =>
    if n < 10 then [digitChar n]
    else natDigitsAux fuel (n / 10) ++ [digitChar (n % 10)]

/-- Decimal rendering of a natural number. -/
def natDigitsStr (n : Nat) : PyString := natDigitsAux (n + 1) n

/-- `str(IPv4Address(n))`: dotted-quad text of a 32-bit address. -/
def ipv4Repr (n : Nat) : PyString :=
  natDigitsStr (n / 16777216 % 256) ++ pyStr "." ++ natDigitsStr (n / 65536 % 256) ++
    pyStr "." ++ natDigitsStr (n / 256 % 256) ++ pyStr "." ++ natDigitsStr (n % 256)

/-- A lowercase hexadecimal digit character. -/
def hexDigitChar (d : Nat) : Char :=
  if d < 10 then Char.ofNat (48 + d) else Char.ofNat (87 + d)

/-- Lowercase hexadecimal text of one 16-bit group, without leading zeros. -/
def hexGroupStr (g : Nat) : PyString :=
  let d3 := g / 4096 % 16
  let d2 := g / 256 % 16
  let d1 := g / 16 % 16
  let d0 := g % 16
  if d3 ≠ 0 then [hexDigitChar d3, hexDigitChar d2, hexDigitChar d1, hexDigitChar d0]
  else if d2 ≠ 0 then [hexDigitChar d2, hexDigitChar d1, hexDigitChar d0]
  else if d1 ≠ 0 then [hexDigitChar d1, hexDigitChar d0]
  else [hexDigitChar d0]

/-- The leftmost longest run of zero groups: `(start, length)`. -/
def bestZeroRun (groups : List Nat) : Nat × Nat :=
  (List.range groups.length).foldl
    (fun best i =>
      let len := ((groups.drop i).takeWhile (fun g => g = 0)).length
      if best.2 < len then (i, len) else best) (0, 0)

/-- `str(IPv6Address(n))`: model of the standard library's RFC 5952 text
rendering (lowercase hex groups, the leftmost longest run of two or more zero
groups compressed to `::`). -/
def ipv6Repr (n : Nat) : PyString :=
  let groups := (List.range 8).map (fun i => n / 2 ^ (16 * (7 - i)) % 65536)
  let best := bestZeroRun groups
  if 2 ≤ best.2 then
    pyJoin (pyStr ":") ((groups.take best.1).map hexGroupStr) ++ pyStr "::" ++
      pyJoin (pyStr ":") ((groups.drop (best.1 + best.2)).map hexGroupStr)
  else pyJoin (pyStr ":") (groups.map hexGroupStr)

/-- The largest IPv6 address, as an unsigned integer. -/
def ipv6Max : Nat := 2 ^ 128 - 1

/-- A `defaultdict(list)` of address lists, in insertion order. -/
abbrev AddrDict := List (PyString × List Addr)

/-- Reading a key of a `defaultdict(list)`: the stored list, or `[]`. -/
def ddLookup (d : AddrDict) (k : PyString) : List Addr :=
  match d.find? (fun e => e.1 == k) with
  | some e => e.2
  | none => []

/-- Assigning a key of the dictionary: replace the entry, or insert it at the
end. -/
def ddSet (d : AddrDict) (k : PyString) (v : List Addr) : AddrDict :=
  if d.any (fun e => e.1 == k) then
    d.map (fun e => if e.1 == k then (k, v) else e)
  else d ++ [(k, v)]

/-- `d[k].append(a)` on a `defaultdict(list)`. -/
def ddAppendAddr (d : AddrDict) (k : PyString) (a : Addr) : AddrDict :=
  ddSet d k (ddLookup d k ++ [a])

/-- The fixed name suffix of the `DNS` class. -/
def dnsNameSuffix : PyString := pyStr ".boardfarm.com"

/-- The state of a `DNS` instance from `boardfarm3/lib/networking.py`: the
auxiliary addresses and the four name-to-address books. -/
structure DNSState where
  auxv4 : Option Nat
  auxv6 : Option Nat
  device_name : PyString
  dnsv4 : AddrDict
  dnsv6 : AddrDict
  hosts_v4 : AddrDict
  hosts_v6 : AddrDict
  deriving DecidableEq, Repr

/-- `DNS.__init__`: seed the primary record from the device's addresses
(`_add_dns_addresses`), append the auxiliary addresses — and register the aux
URL — when given (`_add_aux_dns_addresses`), then copy the DNS view into the
hosts view. -/
def DNS_init (device_name : PyString) (ipv4_address ipv6_address : Option PyString)
    (ipv4_aux_address ipv6_aux_address : Option Nat) (aux_url : Option PyString) :
    DNSState :=
  let key := device_name ++ dnsNameSuffix
  let dnsv4 :=
    match ipv4_address with
    | some a => ddAppendAddr [] key (.str a)
    | none => []
  let dnsv6 :=
    match ipv6_address with
    | some a => ddAppendAddr [] key (.str a)
    | none => []
  let dnsv4 :=
    match ipv4_aux_address with
    | some a =>
      let d := ddAppendAddr dnsv4 key (.ipv4 a)
      match aux_url with
      | some u => ddAppendAddr d u (.ipv4 a)
      | none => d
    | none => dnsv4
  let dnsv6 :=
    match ipv6_aux_address with
    | some a =>
      let d := ddAppendAddr dnsv6 key (.ipv6 a)
      match aux_url with
      | some u => ddAppendAddr d u (.ipv6 a)
      | none => d
    | none => dnsv6
  { auxv4 := ipv4_aux_address, auxv6 := ipv6_aux_address, device_name := device_name,
    dnsv4 := dnsv4, dnsv6 := dnsv6, hosts_v4 := dnsv4, hosts_v6 := dnsv6 }

/-- The loop `for val in range(unreachable_ipv4): ipv4 = self.auxv4 + (val+1);
hosts_v4[...].append(str(ipv4))` of `DNS.configure_hosts`.  `val` counts the
completed iterations and `rem` the remaining ones.  Adding an integer to an
absent (`None`) auxiliary base raises `TypeError`; leaving the address space
raises `AddressValueError`. -/
def synthV4Loop (aux : Option Nat) (key : PyString) :
    Nat → Nat → AddrDict → Except PyError AddrDict
  | _, 0, h => .ok h
  | val, rem + 1, h =>
    match aux with
    | none => .error .typeError
    | some a =>
      if ipv4Max < a + (val + 1) then .error .addressValueError
      else
        synthV4Loop aux key (val + 1) rem
          (ddAppendAddr h key (.str (ipv4Repr (a + (val + 1)))))

/-- The IPv6 counterpart of `synthV4Loop`. -/
def synthV6Loop (aux : Option Nat) (key : PyString) :
    Nat → Nat → AddrDict → Except PyError AddrDict
  | _, 0, h => .ok h
  | val, rem + 1, h =>
    match aux with
    | none => .error .typeError
    | some a =>
      if ipv6Max < a + (val + 1) then .error .addressValueError
      else
        synthV6Loop aux key (val + 1) rem
          (ddAppendAddr h key (.str (ipv6Repr (a + (val + 1)))))

/-- `DNS.configure_hosts`: truncate the hosts-view lists of the primary name
to the first `reachable_ipv4`/`reachable_ipv6` entries, then append the
synthetic unreachable addresses derived from the auxiliary bases. -/
def configure_hosts (st : DNSState)
    (reachable_ipv4 unreachable_ipv4 reachable_ipv6 unreachable_ipv6 : Nat) :
    Except PyError DNSState :=
  let key := st.device_name ++ dnsNameSuffix
  let val_v4 := (ddLookup st.hosts_v4 key).take reachable_ipv4
  let val_v6 := (ddLookup st.hosts_v6 key).take reachable_ipv6
  let h4 := ddSet st.hosts_v4 key val_v4
  let h6 := ddSet st.hosts_v6 key val_v6
  match synthV4Loop st.auxv4 key 0 unreachable_ipv4 h4 with
  | .error e => .error e
  | .ok h4f =>
    match synthV6Loop st.auxv6 key 0 unreachable_ipv6 h6 with
    | .error e => .error e
    | .ok h6f => .ok { st with hosts_v4 := h4f, hosts_v6 := h6f }

/-- The DNS instance of the claim's worked example: device `"wan"`, primary
IPv4 `"10.0.0.1"`, auxiliary IPv4 `10.0.0.100` (integer value `167772260`). -/
def c4WitnessState : DNSState :=
  DNS_init (pyStr "wan") (some (pyStr "10.0.0.1")) Option.none (some 167772260)
    Option.none Option.none

/-- A DNS instance whose auxiliary IPv4 sits at the very top of the address
space. -/
def c4CexState : DNSState :=
  DNS_init (pyStr "wan") (some (pyStr "10.0.0.1")) Option.none (some ipv4Max)
    Option.none Option.none

/-- A DNS instance constructed without auxiliary addresses. -/
def c10WitnessState : DNSState :=
  DNS_init (pyStr "wan") (some (pyStr "10.0.0.1")) Option.none Option.none
    Option.none Option.none

/-- All characters are decimal digits. -/
def allDigits (s : PyString) : Bool := s.all Char.isDigit

/-- Python `float(s)` for plain decimal literals (optional sign, integer part,
optional fraction), modelled over exact rationals; anything else raises
`ValueError`. -/
def pyFloat (s : PyString) : Except PyError ℚ :=
  let neg := pyStartsWith s (pyStr "-")
  let pos := pyStartsWith s (pyStr "+")
  let t := if neg || pos then s.drop 1 else s
  let sign : ℚ := if neg then -1 else 1
  match pySplit (pyStr ".") t with
  | [ip] =>
    if ip ≠ [] ∧ allDigits ip = true then .ok (sign * pyInt ip)
    else .error .valueError
  | [ip, fp] =>
    if (ip ≠ [] ∨ fp ≠ []) ∧ allDigits ip = true ∧ allDigits fp = true then
      .ok (sign * ((pyInt ip : ℚ) + (pyInt fp : ℚ) / 10 ^ fp.length))
    else .error .valueError
  | _ => .error .valueError

/-- Round a rational to the nearest integer, ties to the even integer
(Python's rounding mode). -/
def roundHalfEven (q : ℚ) : Int :=
  let f := ⌊q⌋
  let r := q - f
  if r < 1 / 2 then f
  else if 1 / 2 < r then f + 1
  else if f % 2 = 0 then f else f + 1

/-- Python `round(q, 3)` over the rational model. -/
def pyRound3 (q : ℚ) : ℚ := (roundHalfEven (q * 1000) : ℚ) / 1000

/-- The fixed unit table of `GenericWrapper.__init__` in
`boardfarm/dbclients/influx_wrapper.py` (integer multipliers to reach
megabits). -/
def unitsTable : List (PyString × Nat) :=
  [(pyStr "bits", 1), (pyStr "bytes", 8),
   (pyStr "kbits", 1024 * 1), (pyStr "kbytes", 1024 * 8),
   (pyStr "mbits", 1024 * 1024 * 1), (pyStr "mbytes", 1024 * 1024 * 8),
   (pyStr "gbits", 1024 * 1024 * 1024 * 1), (pyStr "gbytes", 1024 * 1024 * 1024 * 8)]

/-- Lookup in the unit table (`self.units`). -/
def unitsLookup (k : PyString) : Option Nat :=
  (unitsTable.find? (fun e => e.1 == k)).map (fun e => e.2)

/-- One record appended to the iperf descriptor's `data` list by
`collect_logs`: the `"data"`/`"result"` classification, and — when the units
token is known — the value triple (interval-end marker, normalised megabit
value, trailing field).  The Python code stores `str(round(...))`; the
numeric rendering is kept as the exact rational here. -/
structure SumSample where
  sampleType : PyString
  value : Option (PyString × ℚ × PyString)
  deriving DecidableEq, Repr

/-- The `[SUM]`-line handling of `GenericWrapper.collect_logs`: split the line
on spaces dropping empty fields, classify by the length of the dash-separated
reporting interval in field 1, and — if field 4 (case-insensitive) is a known
unit — record field 1's interval end, `round(float(field 3) * units[unit] /
units["mbits"], 3)` and field 5. -/
def processSumLine (i : PyString) : Except PyError SumSample :=
  let line := (pySplit (pyStr " ") i).filter (fun j => j != [])
  match pyIndex line 1 with
  | .error e => .error e
  | .ok f1 =>
    match pyIndex (pySplit (pyStr "-") f1) 1 with
    | .error e => .error e
    | .ok hi =>
      match pyFloat hi with
      | .error e => .error e
      | .ok qhi =>
        match pyIndex (pySplit (pyStr "-") f1) 0 with
        | .error e => .error e
        | .ok lo =>
          match pyFloat lo with
          | .error e => .error e
          | .ok qlo =>
            let sampleType := if qhi - qlo < 2 then pyStr "data" else pyStr "result"
            match pyIndex line 4 with
            | .error e => .error e
            | .ok f4 =>
              match unitsLookup (pyLower f4) with
              | Option.none => .ok { sampleType := sampleType, value := Option.none }
              | some mult =>
                match pyIndex line 3 with
                | .error e => .error e
                | .ok f3 =>
                  match pyFloat f3 with
                  | .error e => .error e
                  | .ok v =>
                    match pyIndex line 5 with
                    | .error e => .error e
                    | .ok f5 =>
                      .ok { sampleType := sampleType,
                            value := some (hi,
                              pyRound3 (v * (mult : ℚ) /
                                (((unitsLookup (pyStr "mbits")).getD 0 : Nat) : ℚ)),
                              f5) }

/-- The incremental-parse state of one iperf descriptor inside
`collect_logs`. -/
structure IperfMeta where
  last_index : Option PyString
  fields : Option (List PyString)
  data : List SumSample
  deriving DecidableEq, Repr

/-- Drop every line up to and including the first occurrence of `x`
(`meta[meta.index(x) + 1:]`). -/
def dropThroughFirst (x : PyString) : List PyString → List PyString
  | [] => []
  | y :: r => if y == x then r else dropThroughFirst x r

/-- The per-line loop of `collect_logs`: record the three field names from the
first `[ ID]` line, process each `[SUM]` line — remembering it as the new
last-index marker and keeping its sample only when the units token is
known. -/
def collectLinesLoop : IperfMeta → List PyString → Except PyError IperfMeta
  | meta, [] => .ok meta
  | meta, i :: rest =>
    let meta1 :=
      if pyContains (pyStr "[ ID]") i = true ∧ meta.fields = Option.none then
        { meta with fields :=
            ((((pySplit (pyStr " ") i).filter (fun j => j != [])).drop 2).take 3) }
      else meta
    if pyStartsWith i (pyStr "[SUM]") then
      match processSumLine i with
      | .error e => .error e
      | .ok smp =>
        let meta2 := { meta1 with last_index := some i }
        match smp.value with
        | some _ => collectLinesLoop { meta2 with data := meta2.data ++ [smp] } rest
        | Option.none => collectLinesLoop meta2 rest
    else collectLinesLoop meta1 rest

/-- The line phase of `collect_logs` for one descriptor: skip everything up to
and including the previously recorded last-index line when it is present,
then run the per-line loop with a fresh sample list. -/
def collect_logs_lines (last_index : Option PyString) (fields : Option (List PyString))
    (lines : List PyString) : Except PyError IperfMeta :=
  let kept :=
    match last_index with
    | some li => if li ∈ lines then dropThroughFirst li lines else lines
    | Option.none => lines
  collectLinesLoop { last_index := Option.none, fields := fields, data := [] } kept

/-- A boardfarm device as the interactive shell sees it: its type and its
interactive console names. -/
structure BFDevice where
  device_type : PyString
  consoles : List PyString
  deriving DecidableEq, Repr

/-- The `devices_dict` of the interactive shell, in insertion order. -/
abbrev DevicesDict := List (PyString × BFDevice)

/-- Python string `<` (lexicographic by code point). -/
def pyStrLt : PyString → PyString → Bool
  | [], [] => false
  | [], _ :: _ => true
  | _ :: _, [] => false
  | x :: xs, y :: ys => if x = y then pyStrLt xs ys else decide (x < y)

/-- Insert into an ascending list (helper for `sorted`). -/
def insertSorted (x : PyString) : List PyString → List PyString
  | [] => [x]
  | y :: ys => if pyStrLt y x then y :: insertSorted x ys else x :: y :: ys

/-- Python `sorted` on a list of strings. -/
def pySorted (l : List PyString) : List PyString :=
  l.foldl (fun acc x => insertSorted x acc) []

/-- `f"{s: <16}"`-style right padding. -/
def padRightStr (w : Nat) (s : PyString) : PyString :=
  s ++ List.replicate (w - s.length) ' '

/-- `f"{i: >2}"`-style left padding. -/
def padLeftStr (w : Nat) (s : PyString) : PyString :=
  List.replicate (w - s.length) ' ' ++ s

/-- Dictionary `get` on an insertion-ordered dict. -/
def dictGet {β : Type} (d : List (PyString × β)) (k : PyString) : Option β :=
  (d.find? (fun e => e.1 == k)).map (fun e => e.2)

/-- The inline error message for non-numeric input. -/
def errWrongInput : PyString := pyStr "\nERROR: Wrong input. Please try again.\n"

/-- The inline error message for an out-of-range device number. -/
def errWrongDeviceId : PyString := pyStr "\nERROR: Wrong device ID. Please try again.\n"

/-- The inline error message for an out-of-range console number. -/
def errWrongConsoleId : PyString := pyStr "\nERROR: Wrong console ID. Please try again.\n"

/-- The numbered table rows printed by `_get_device_name_from_user`
(`f"{i: >2}  {device_name: <16} {device.device_type: <16} {num_consoles}"`);
a missing name would make the `.get` return `None` and the attribute access
raise. -/
def tableRows (devices_dict : DevicesDict) :
    List PyString → Nat → Except PyError (List PyString)
  | [], _ => .ok []
  | name :: rest, i =>
    match dictGet devices_dict name with
    | Option.none => .error .attributeError
    | some dev =>
      match tableRows devices_dict rest (i + 1) with
      | .ok rows =>
        .ok ((padLeftStr 2 (natDigitsStr i) ++ pyStr "  " ++ padRightStr 16 name ++
          pyStr " " ++ padRightStr 16 dev.device_type ++
          natDigitsStr dev.consoles.length) :: rows)
      | .error e => .error e

/-- `_get_device_name_from_user` from `boardfarm/plugins/core.py`: print the
alphabetically sorted device table, read one input, and return `some` of the
exit code or of a selected device name — selection indexes
`device_names[int(device_id) - 1]` with Python semantics — or `none` after an
inline error message.  Also returns everything printed. -/
def get_device_name_from_user (devices_dict : DevicesDict)
    (exit_code input : PyString) :
    Except PyError (Option PyString × List PyString) :=
  let device_names := pySorted (devices_dict.map (fun e => e.1))
  match tableRows devices_dict device_names 1 with
  | .error e => .error e
  | .ok rows =>
    let prints :=
      [pyStr "----------------------------------------------",
       pyStr "ID  Device name      Device type      Consoles",
       pyStr "----------------------------------------------"] ++ rows ++
      [pyStr "\nEnter '" ++ exit_code ++ pyStr "' to exit the interactive shell.\n",
       pyStr "Please enter a device ID: "]
    if input == exit_code then .ok (some input, prints)
    else if !(pyIsDigit input) then .ok (Option.none, prints ++ [errWrongInput])
    else if device_names.length < pyInt input then
      .ok (Option.none, prints ++ [errWrongDeviceId])
    else
      match pyIndex device_names ((pyInt input : Int) - 1) with
      | .ok name => .ok (some name, prints)
      | .error e => .error e

/-- The result of the console-selection loop. -/
inductive ConsoleSel where
  | chosen (name : PyString)
  | noneAvailable
  | needInput
  | raisedSel (e : PyError)
  deriving DecidableEq, Repr

/-- The numbered console list
(`" ".join([f"{x}) {y:16}" for x, y in enumerate(console_names, start=1)])`
wrapped as `f"\n{console_ids} q) go back.\n"`). -/
def consolePromptLine (console_names : List PyString) : PyString :=
  pyStr "\n" ++
    pyJoin (pyStr " ")
      (((List.range console_names.length).zip console_names).map
        (fun p => natDigitsStr (p.1 + 1) ++ pyStr ") " ++ padRightStr 16 p.2)) ++
    pyStr " q) go back.\n"

/-- The `while True` loop of `_get_console_name_from_user`, consuming one
operator input per iteration; with no pending input the session blocks
(`needInput`).  Note the console prompt has no working exit code: `"q"` is
non-numeric and merely reprompts. -/
def consoleLoop (device_name : PyString) (console_names : List PyString) :
    List PyString → List PyString → ConsoleSel × List PyString × List PyString
  | inputs, prints =>
    if console_names.isEmpty then
      (.noneAvailable, inputs,
        prints ++ [pyStr "\nERROR: No console available for " ++ device_name ++
          pyStr ". Please try another device.\n"])
    else if console_names.length == 1 then (.chosen console_names.headI, inputs, prints)
    else
      let promptPrints :=
        [device_name ++ pyStr "' has more than one console.",
         consolePromptLine console_names,
         pyStr "Please enter a console ID: "]
      match inputs with
      | [] => (.needInput, [], prints ++ promptPrints)
      | inp :: rest =>
        if !(pyIsDigit inp) then
          consoleLoop device_name console_names rest
            (prints ++ promptPrints ++ [errWrongInput])
        else if console_names.length < pyInt inp then
          consoleLoop device_name console_names rest
            (prints ++ promptPrints ++ [errWrongConsoleId])
        else
          match pyIndex console_names ((pyInt inp : Int) - 1) with
          | .ok c => (.chosen c, rest, prints ++ promptPrints)
          | .error e => (.raisedSel e, rest, prints ++ promptPrints)

/-- `_get_console_name_from_user`: sort the console names once, then run the
selection loop. -/
def getConsoleNameFromUser (device_name : PyString) (consoles : List PyString)
    (inputs : List PyString) : ConsoleSel × List PyString × List PyString :=
  consoleLoop device_name (pySorted consoles) inputs []

/-- The effect of one iteration of the `while True` loop of
`boardfarm_post_deploy_devices`. -/
inductive StepOutcome where
  | exitLoop
  | continueLoop
  | enterConsole (device_name console_name : PyString)
  | needMoreInput
  | raised (e : PyError)
  deriving DecidableEq, Repr

/-- One iteration of the interactive shell's outer loop
(`boardfarm_post_deploy_devices`): break when no devices exist; break on the
exit code; continue after a rejected selection; otherwise select a console of
the chosen device and enter its interactive session.  Returns the outcome and
everything printed in the iteration. -/
def boardfarm_post_deploy_step (devices_dict : DevicesDict)
    (device_input : PyString) (console_inputs : List PyString) :
    StepOutcome × List PyString :=
  if devices_dict.isEmpty then
    (.exitLoop, [pyStr "No device available in the environment."])
  else
    match get_device_name_from_user devices_dict (pyStr "q") device_input with
    | .error e => (.raised e, [])
    | .ok (result, prints) =>
      match result with
      | Option.none => (.continueLoop, prints)
      | some name =>
        if name == pyStr "q" then (.exitLoop, prints)
        else
          match dictGet devices_dict name with
          | Option.none => (.raised .attributeError, prints)
          | some dev =>
            match getConsoleNameFromUser name dev.consoles console_inputs with
            | (.chosen c, _, prints2) =>
              (.enterConsole name c,
                prints ++ prints2 ++
                  [pyStr "\nEntering into " ++ c ++ pyStr "(" ++ name ++ pyStr ")\n"])
            | (.noneAvailable, _, prints2) => (.continueLoop, prints ++ prints2)
            | (.needInput, _, prints2) => (.needMoreInput, prints ++ prints2)
            | (.raisedSel e, _, prints2) => (.raised e, prints ++ prints2)

/-- A two-device environment (`a_dev` and `b_dev`, one console each). -/
def c1CexDevices : DevicesDict :=
  [(pyStr "a_dev", { device_type := pyStr "linux", consoles := [pyStr "console"] }),
   (pyStr "b_dev", { device_type := pyStr "linux", consoles := [pyStr "console"] })]

theorem ip_pool_to_list_ok : ∀ (n s e : Nat), e - s = n → s ≤ e → e < ipv4Max →
    ip_pool_to_list s e = .ok (List.range' s (e - s + 1)) := by
  intro n
  induction n with
  | zero =>
    intro s e h0 h1 h2
    have hse : s = e := by omega
    subst hse
    rw [ip_pool_to_list, dif_pos (le_refl s), if_neg (by omega), if_neg (by omega),
      ip_pool_to_list, dif_neg (by omega)]
    have h3 : s - s + 1 = 1 := by omega
    rw [h3, List.range'_one]
  | succ n ih =>
    intro s e h0 h1 h2
    rw [ip_pool_to_list, dif_pos h1, if_neg (by omega), if_neg (by omega),
      ih (s + 1) e (by omega) (by omega) h2]
    have h3 : e - s + 1 = (e - (s + 1) + 1) + 1 := by omega
    rw [h3]
    conv_rhs => rw [List.range'_succ]

/-- Claim C3 (amended): for `a + k` strictly below the maximal IPv4 address,
`ip_pool_to_list a a = [a]` and `ip_pool_to_list a (a+k)` is the `k+1`
consecutive addresses from `a`; for `start_ip > end_ip` the result is empty;
but when `end_ip` is the maximal address `255.255.255.255` and
`start_ip ≤ end_ip`, evaluating the loop bound `end_ip + 1` raises
`AddressValueError` instead of producing the list. -/
theorem ip_pool_to_list_spec (a k : Nat) (hvalid : a + k < ipv4Max) :
    ip_pool_to_list a a = .ok [a] ∧
    ip_pool_to_list a (a + k) = .ok (List.range' a (k + 1)) ∧
    (∀ s e : Nat, e < s → ip_pool_to_list s e = .ok []) ∧
    (∀ s : Nat, s ≤ ipv4Max → ip_pool_to_list s ipv4Max = .error .addressValueError) := by
  refine ⟨?_, ?_, ?_, ?_⟩
  · have h := ip_pool_to_list_ok 0 a a (by omega) (le_refl a) (by omega)
    have h3 : a - a + 1 = 1 := by omega
    rw [h3, List.range'_one] at h
    exact h
  · have h := ip_pool_to_list_ok k a (a + k) (by omega) (by omega) hvalid
    have h3 : a + k - a + 1 = k + 1 := by omega
    rw [h3] at h
    exact h
  · intro s e h
    rw [ip_pool_to_list, dif_neg (by omega)]
  · intro s hs
    rw [ip_pool_to_list, dif_pos hs, if_pos (by omega)]

/-- Witness for C3: `ip_pool_to_list 5 7` is `[5, 6, 7]`. -/
theorem ip_pool_to_list_spec_witness :
    ip_pool_to_list 5 (5 + 2) = .ok (List.range' 5 (2 + 1)) ∧
    List.range' 5 (2 + 1) = [5, 6, 7] :=
  ⟨(ip_pool_to_list_spec 5 2 (by decide)).2.1, by decide⟩

/-- Counterexample for C3 as stated: with `a` the maximal IPv4 address and
`k = 0`, `a + k` is a valid IPv4 address, yet `ip_pool_to_list a a` raises
`AddressValueError` (from computing `end_ip + 1`) instead of returning `[a]`. -/
theorem ip_pool_to_list_cex :
    ip_pool_to_list ipv4Max ipv4Max = .error .addressValueError ∧
    ip_pool_to_list ipv4Max ipv4Max ≠ .ok [ipv4Max] := by
  constructor
  · rw [ip_pool_to_list, dif_pos (le_refl _), if_pos (by omega)]
  · rw [ip_pool_to_list, dif_pos (le_refl _), if_pos (by omega)]
    exact fun h => nomatch h

theorem retryAux_spec (fn : Nat → PyVal) :
    ∀ (k c : Nat),
      c + 1 ≤ (retryAux fn k c).2 ∧ (retryAux fn k c).2 ≤ c + k + 1 ∧
      (retryAux fn k c).1 = fn ((retryAux fn k c).2 - 1) ∧
      (∀ i, c ≤ i → i + 1 < (retryAux fn k c).2 → isRetryFailure (fn i) = true) ∧
      ((retryAux fn k c).2 < c + k + 1 →
        isRetryFailure (fn ((retryAux fn k c).2 - 1)) = false) := by
  intro k
  induction k with
  | zero =>
    intro c
    refine ⟨le_refl _, le_refl _, by simp [retryAux], ?_, ?_⟩
    · intro i hci hi
      simp [retryAux] at hi
      omega
    · intro h
      simp [retryAux] at h
  | succ k ih =>
    intro c
    by_cases hcond : ((fn c).truthy && fn c != PyVal.str (pyStr "False")) = true
    · have hr : retryAux fn (k + 1) c = (fn c, c + 1) := by
        simp [retryAux, hcond]
      rw [hr]
      refine ⟨le_refl _, by omega, by simp, ?_, ?_⟩
      · intro i hci hi
        simp at hi
        omega
      · intro _
        simp [isRetryFailure, hcond]
    · have hr : retryAux fn (k + 1) c = retryAux fn k (c + 1) := by
        simp only [retryAux]
        rw [if_neg hcond]
      rw [hr]
      obtain ⟨ih1, ih2, ih3, ih4, ih5⟩ := ih (c + 1)
      refine ⟨by omega, by omega, ih3, ?_, fun h => ih5 (by omega)⟩
      intro i hci hi
      rcases Nat.eq_or_lt_of_le hci with h | h
      · subst h
        simp only [isRetryFailure]
        rw [Bool.not_eq_true] at hcond
        rw [hcond]
        rfl
      · exact ih4 i h hi

/-- Claim C2: `retry(fn, max_retry)` with `max_retry ≥ 1` calls `fn` at least
once and at most `max_retry` times; a failed attempt is exactly one whose
value is falsy or equal to the literal string `"False"`; every call before
the last one fails; the returned value is the last call's value; if the loop
stopped before the final iteration the last call succeeded; and when all of
the first `max_retry - 1` attempts fail, exactly `max_retry` calls are made
and the final call's value is returned unconditionally. -/
theorem retry_spec (fn : Nat → PyVal) (m : Nat) (hm : 1 ≤ m) :
    (∀ v : PyVal, isRetryFailure v = (!v.truthy || v == PyVal.str (pyStr "False"))) ∧
    1 ≤ (retry fn m).2 ∧ (retry fn m).2 ≤ m ∧
    (retry fn m).1 = fn ((retry fn m).2 - 1) ∧
    (∀ i, i + 1 < (retry fn m).2 → isRetryFailure (fn i) = true) ∧
    ((retry fn m).2 < m → isRetryFailure (fn ((retry fn m).2 - 1)) = false) ∧
    ((∀ i, i + 1 < m → isRetryFailure (fn i) = true) →
      (retry fn m).2 = m ∧ (retry fn m).1 = fn (m - 1)) := by
  obtain ⟨h1, h2, h3, h4, h5⟩ := retryAux_spec fn (m - 1) 0
  simp only [retry]
  have hm' : 0 + (m - 1) + 1 = m := by omega
  rw [hm'] at h2 h5
  refine ⟨?_, by omega, h2, h3, fun i hi => h4 i (Nat.zero_le i) hi, h5, ?_⟩
  · intro v
    cases v <;> simp [isRetryFailure, bne]
  · intro hall
    have hcalls : (retryAux fn (m - 1) 0).2 = m := by
      by_contra hne
      have hlt : (retryAux fn (m - 1) 0).2 < m := by omega
      have hfail := hall ((retryAux fn (m - 1) 0).2 - 1) (by omega)
      rw [h5 hlt] at hfail
      exact Bool.false_ne_true hfail
    rw [hcalls] at h3
    exact ⟨hcalls, h3⟩

/-- Witness for C2: with a function falsy on its first two calls and truthy
on the third, `retry(fn, 3)` returns the third value and makes exactly
3 calls. -/
theorem retry_spec_witness :
    retry retryWitnessFn 3 = (PyVal.int 7, 3) ∧ (retry retryWitnessFn 3).2 ≤ 3 :=
  ⟨by decide, (retry_spec retryWitnessFn 3 (by decide)).2.2.1⟩

/-- Claim C8: `get_iptables_list` and `get_ip6tables_list` delegate to the
identical parser entry point (`IptablesParser().ip6tables`); hence whenever
the console outputs of their respective commands are equal strings, the two
operations return equal chain-to-rule-list mappings. -/
theorem iptables_lists_shared_entry {α : Type} (fw : IptablesFirewall α)
    (opts extra_opts : PyString)
    (h : fw.execute_command (pyStr "iptables " ++ opts ++ pyStr " " ++ extra_opts) =
      fw.execute_command (pyStr "ip6tables " ++ opts ++ pyStr " " ++ extra_opts)) :
    get_iptables_list fw opts extra_opts = get_ip6tables_list fw opts extra_opts ∧
    get_iptables_list fw opts extra_opts =
      fw.parser.ip6tables
        (fw.execute_command (pyStr "iptables " ++ opts ++ pyStr " " ++ extra_opts)) := by
  constructor
  · simp only [get_iptables_list, get_ip6tables_list, h]
  · rfl

/-- Witness for C8 at a concrete firewall whose console returns the same
output for both commands. -/
theorem iptables_lists_shared_entry_witness :
    get_iptables_list c8WitnessFirewall [] [] = get_ip6tables_list c8WitnessFirewall [] [] :=
  (iptables_lists_shared_entry c8WitnessFirewall [] [] rfl).1

theorem applyWanOptions_dhcp_server (iface : PyString) :
    ∀ (opts : List PyString) (acc : WanState × List PyString),
      acc.1.wan_dhcp_server = false →
      ((applyWanOptions iface acc opts).1).wan_dhcp_server = false := by
  intro opts
  induction opts with
  | nil => intro acc h; exact h
  | cons opt rest ih =>
    intro acc h
    rw [applyWanOptions]
    apply ih
    simp only [applyWanOption]
    split_ifs <;> simp_all

/-- Claim C9: the WAN driver's DHCP-server flag is an invariant-false field:
`__init__` sets it to `false`; every directive of the `_setup_wan` option
grammar either leaves it unchanged or assigns `false` (`wan-no-dhcp-server`);
and running the full setup from the constructed state leaves it `false` for
every configuration `options` string. -/
theorem wan_dhcp_server_invariant :
    initWanState.wan_dhcp_server = false ∧
    (∀ (iface : PyString) (st : WanState) (opt : PyString),
      ((applyWanOption iface st opt).1).wan_dhcp_server = st.wan_dhcp_server ∨
      ((applyWanOption iface st opt).1).wan_dhcp_server = false) ∧
    (∀ (iface : PyString) (config_options : Option PyString) (st : WanState),
      st.wan_dhcp_server = false →
      ((setup_wan iface config_options st).1).wan_dhcp_server = false) := by
  refine ⟨rfl, ?_, ?_⟩
  · intro iface st opt
    simp only [applyWanOption]
    split_ifs <;> simp
  · intro iface copts st h
    match copts with
    | none => exact h
    | some optstr =>
      simp only [setup_wan]
      exact applyWanOptions_dhcp_server iface _ (st, _) h

/-- Witness for C9: running the setup with directives
`"wan-dhcp-client, wan-no-dhcp-server"` from the constructed state leaves the
DHCP-server flag `false`. -/
theorem wan_dhcp_server_invariant_witness :
    ((setup_wan (pyStr "eth1")
        (some (pyStr "wan-dhcp-client, wan-no-dhcp-server"))
        initWanState).1).wan_dhcp_server = false :=
  wan_dhcp_server_invariant.2.2 (pyStr "eth1")
    (some (pyStr "wan-dhcp-client, wan-no-dhcp-server")) initWanState rfl

theorem pyStartsWith_self_append (pat t : PyString) :
    pyStartsWith (pat ++ t) pat = true := by
  induction pat with
  | nil =>
    show pyStartsWith t [] = true
    cases t <;> rfl
  | cons p ps ih => simp [pyStartsWith, ih]

theorem pyStartsWith_exists (s pat : PyString) :
    pyStartsWith s pat = true ↔ ∃ t, s = pat ++ t := by
  induction pat generalizing s with
  | nil => simp [pyStartsWith]
  | cons p ps ih =>
    match s with
    | [] => simp [pyStartsWith]
    | c :: s' =>
      rw [pyStartsWith]
      simp only [Bool.and_eq_true, beq_iff_eq, ih]
      constructor
      · rintro ⟨hpc, t, ht⟩
        exact ⟨t, by simp [hpc, ht]⟩
      · rintro ⟨t, ht⟩
        simp only [List.cons_append] at ht
        cases ht
        exact ⟨rfl, t, rfl⟩

theorem findSep_split (sep : PyString) :
    ∀ (s pre post : PyString), findSep sep s = some (pre, post) →
      s = pre ++ sep ++ post := by
  intro s
  induction s with
  | nil => intro pre post h; exact absurd h (by simp [findSep])
  | cons c rest ih =>
    intro pre post h
    rw [findSep] at h
    by_cases hsw : pyStartsWith (c :: rest) sep = true
    · rw [if_pos hsw] at h
      obtain ⟨t, ht⟩ := (pyStartsWith_exists (c :: rest) sep).mp hsw
      cases h
      rw [ht, List.drop_left]
      simp
    · rw [if_neg hsw] at h
      match hfind : findSep sep rest with
      | some (pre', post') =>
        rw [hfind] at h
        cases h
        have := ih _ _ hfind
        simp [this]
      | none => rw [hfind] at h; exact absurd h (by simp)

theorem findSep_append (sep b : PyString) (hsep : sep ≠ []) :
    ∀ (a : PyString),
      (∀ p q, a = p ++ q → q ≠ [] → pyStartsWith (q ++ sep ++ b) sep = false) →
      findSep sep (a ++ sep ++ b) = some (a, b) := by
  intro a
  induction a with
  | nil =>
    intro _
    match sep, hsep with
    | c :: cs, _ =>
      show findSep (c :: cs) (c :: (cs ++ b)) = some ([], b)
      have hsw : pyStartsWith (c :: (cs ++ b)) (c :: cs) = true :=
        pyStartsWith_self_append (c :: cs) b
      rw [findSep, if_pos hsw]
      have hdrop : (c :: (cs ++ b)).drop (c :: cs).length = b := by
        simp [List.drop_left]
      rw [hdrop]
  | cons x a' ih =>
    intro H
    have hx : pyStartsWith ((x :: a') ++ sep ++ b) sep = false :=
      H [] (x :: a') rfl (by simp)
    show findSep sep (x :: (a' ++ sep ++ b)) = some (x :: a', b)
    rw [findSep]
    have hx' : pyStartsWith (x :: (a' ++ sep ++ b)) sep = false := hx
    rw [if_neg (by rw [hx']; exact Bool.false_ne_true)]
    rw [ih (fun p q hpq hq => H (x :: p) q (by rw [hpq]; rfl) hq)]

theorem findSep_none_of_not_mem (c : Char) (cs : PyString) :
    ∀ (s : PyString), c ∉ s → findSep (c :: cs) s = none := by
  intro s
  induction s with
  | nil => intro _; rfl
  | cons x rest ih =>
    intro h
    rw [findSep]
    have hcx : (c == x) = false := by
      simp only [beq_eq_false_iff_ne, ne_eq]
      intro hc
      exact h (hc ▸ List.mem_cons_self x rest)
    rw [if_neg (by simp [pyStartsWith, hcx]), ih (fun hm => h (List.mem_cons_of_mem x hm))]

theorem pySplitAux_of_none (sep s : PyString) (h : findSep sep s = none) :
    ∀ fuel, pySplitAux sep fuel s = [s] := by
  intro fuel
  cases fuel with
  | zero => rfl
  | succ f => rw [pySplitAux, h]

theorem pySplitAux_fuel (sep : PyString) (hsep : sep ≠ []) :
    ∀ (f1 : Nat) (s : PyString) (f2 : Nat), s.length < f1 → s.length < f2 →
      pySplitAux sep f1 s = pySplitAux sep f2 s := by
  intro f1
  induction f1 with
  | zero => intro s f2 h1 _; exact absurd h1 (by omega)
  | succ f ih =>
    intro s f2 h1 h2
    match f2, h2 with
    | g + 1, _ =>
      rw [pySplitAux, pySplitAux]
      match hfind : findSep sep s with
      | none => rfl
      | some (pre, post) =>
        have hdecomp := findSep_split sep s pre post hfind
        have hslen := congrArg List.length hdecomp
        simp only [List.length_append] at hslen
        have hsep1 : 0 < sep.length := List.length_pos.mpr hsep
        show pre :: pySplitAux sep f post = pre :: pySplitAux sep g post
        rw [ih post g (by omega) (by omega)]

theorem pySplit_append (sep a b : PyString) (hsep : sep ≠ [])
    (H : ∀ p q, a = p ++ q → q ≠ [] → pyStartsWith (q ++ sep ++ b) sep = false) :
    pySplit sep (a ++ sep ++ b) = a :: pySplit sep b := by
  rw [pySplit, pySplit]
  have hsep1 : 0 < sep.length := List.length_pos.mpr hsep
  rw [pySplitAux, findSep_append sep b hsep a H]
  show a :: pySplitAux sep ((a ++ sep ++ b).length) b = a :: pySplitAux sep (b.length + 1) b
  congr 1
  exact pySplitAux_fuel sep hsep ((a ++ sep ++ b).length) b (b.length + 1)
    (by simp only [List.length_append]; omega) (by omega)

theorem noInnerMatch_firstChar (c : Char) (cs b a : PyString) (h : c ∉ a) :
    ∀ p q, a = p ++ q → q ≠ [] → pyStartsWith (q ++ (c :: cs) ++ b) (c :: cs) = false := by
  intro p q hpq hq
  match q, hq with
  | x :: q', _ =>
    have hx : x ∈ a := by
      rw [hpq]; exact List.mem_append.mpr (Or.inr (List.mem_cons_self x q'))
    have hcx : (c == x) = false := by
      simp only [beq_eq_false_iff_ne, ne_eq]
      intro hc
      exact h (hc ▸ hx)
    show pyStartsWith (x :: (q' ++ (c :: cs) ++ b)) (c :: cs) = false
    simp [pyStartsWith, hcx]

theorem noInnerMatch_secondChar (c0 c1 : Char) (cs b a : PyString)
    (hne : (c1 == c0) = false) (h : c1 ∉ a) :
    ∀ p q, a = p ++ q → q ≠ [] →
      pyStartsWith (q ++ (c0 :: c1 :: cs) ++ b) (c0 :: c1 :: cs) = false := by
  intro p q hpq hq
  match q, hq with
  | [x], _ =>
    show pyStartsWith (x :: c0 :: (c1 :: cs ++ b)) (c0 :: c1 :: cs) = false
    simp [pyStartsWith, hne]
  | x :: y :: q', _ =>
    have hy : y ∈ a := by
      rw [hpq]
      exact List.mem_append.mpr (Or.inr (List.mem_cons_of_mem x (List.mem_cons_self y q')))
    have hcy : (c1 == y) = false := by
      simp only [beq_eq_false_iff_ne, ne_eq]
      intro hc
      exact h (hc ▸ hy)
    show pyStartsWith (x :: y :: (q' ++ (c0 :: c1 :: cs) ++ b)) (c0 :: c1 :: cs) = false
    simp [pyStartsWith, hcy]

/-- Claim C5 (amended): `get_pytest_name` returns the second `::`-separated
segment of the test identifier — the segment after the FIRST `::`, not the
segment after the last one — truncated at the first `" (setup)"` occurrence,
with every space replaced by an underscore.  Stated for identifiers
`<module>::<test> (setup)` whose two parts contain no `:` and no `(`. -/
theorem get_pytest_name_spec (mo te : PyString)
    (h1 : ':' ∉ mo) (h2 : ':' ∉ te) (h3 : '(' ∉ mo) (h4 : '(' ∉ te) :
    get_pytest_name (some (mo ++ pyStr "::" ++ te ++ pyStr " (setup)")) =
      .ok (pyReplace (pyStr " ") (pyStr "_") te) := by
  have hpa : '(' ∉ mo ++ pyStr "::" ++ te := by
    simp only [List.mem_append]
    rintro ((hm | hs) | ht)
    · exact h3 hm
    · exact absurd hs (by decide)
    · exact h4 ht
  have hsetup : pySplit (pyStr " (setup)") (mo ++ pyStr "::" ++ te ++ pyStr " (setup)") =
      (mo ++ pyStr "::" ++ te) :: pySplit (pyStr " (setup)") [] := by
    have e1 : mo ++ pyStr "::" ++ te ++ pyStr " (setup)" =
        (mo ++ pyStr "::" ++ te) ++ pyStr " (setup)" ++ [] := by simp
    rw [e1]
    exact pySplit_append (pyStr " (setup)") (mo ++ pyStr "::" ++ te) [] (by decide)
      (noInnerMatch_secondChar ' ' '(' (pyStr "setup)") [] _ (by decide) hpa)
  have hmosplit : pySplit (pyStr "::") (mo ++ pyStr "::" ++ te) =
      mo :: pySplit (pyStr "::") te :=
    pySplit_append (pyStr "::") mo te (by decide)
      (noInnerMatch_firstChar ':' (pyStr ":") te mo h1)
  have hte : pySplit (pyStr "::") te = [te] := by
    rw [pySplit]
    exact pySplitAux_of_none _ _ (findSep_none_of_not_mem ':' (pyStr ":") te h2) _
  have hnil : pySplit (pyStr " (setup)") ([] : PyString) = [[]] := rfl
  simp only [get_pytest_name, hsetup, hmosplit, hte, hnil]

/-- Witness for C5: on `"tests/test_rm.py::test_a b (setup)"` (one `::`), the
second segment is the test name, and spaces become underscores. -/
theorem get_pytest_name_spec_witness :
    get_pytest_name
        (some (pyStr "tests/test_rm.py" ++ pyStr "::" ++ pyStr "test_a b" ++
          pyStr " (setup)")) =
      .ok (pyReplace (pyStr " ") (pyStr "_") (pyStr "test_a b")) ∧
    pyReplace (pyStr " ") (pyStr "_") (pyStr "test_a b") = pyStr "test_a_b" :=
  ⟨get_pytest_name_spec (pyStr "tests/test_rm.py") (pyStr "test_a b")
      (by decide) (by decide) (by decide) (by decide),
    by decide⟩

/-- Counterexample for C5 as stated: on the claim's own example
`"tests/test_x.py::TestCls::test_a b (setup)"` the code returns the segment
after the FIRST `::` (`"TestCls"`), not the segment after the last `::`
(`"test_a_b"`). -/
theorem get_pytest_name_cex :
    get_pytest_name (some (pyStr "tests/test_x.py::TestCls::test_a b (setup)")) =
      .ok (pyStr "TestCls") ∧
    pyStr "TestCls" ≠ pyStr "test_a_b" :=
  ⟨rfl, by decide⟩

mutual

theorem noNoneValues_entries (d : PyDict) (h : d.noNoneValues = true) :
    ∀ e ∈ preorderEntries d, PyObj.deepNotNone e.2 = true := by
  match d with
  | .nil =>
    intro e he
    exact absurd he (by simp [preorderEntries])
  | .cons k v r =>
    intro e he
    rw [PyDict.noNoneValues, Bool.and_eq_true] at h
    rw [preorderEntries] at he
    simp only [List.mem_cons, List.mem_append] at he
    rcases he with he | he | he
    · rw [he]
      exact h.1
    · exact deepNotNone_entries v h.1 e he
    · exact noNoneValues_entries r h.2 e he

theorem deepNotNone_entries (v : PyObj) (h : v.deepNotNone = true) :
    ∀ e ∈ preorderEntriesObj v, PyObj.deepNotNone e.2 = true := by
  match v with
  | .dict d =>
    intro e he
    rw [PyObj.deepNotNone] at h
    rw [preorderEntriesObj] at he
    exact noNoneValues_entries d h e he
  | .none => intro e he; exact absurd he (by simp [preorderEntriesObj])
  | .int n => intro e he; exact absurd he (by simp [preorderEntriesObj])
  | .str s => intro e he; exact absurd he (by simp [preorderEntriesObj])

end

theorem specFirstMatch_not_none (key : PyString) (d : PyDict)
    (h : d.noNoneValues = true) (v : PyObj) (hv : specFirstMatch key d = some v) :
    v ≠ PyObj.none := by
  rw [specFirstMatch] at hv
  match hfind : (preorderEntries d).find? (fun e => e.1 == key) with
  | Option.none => rw [hfind] at hv; exact absurd hv (by simp)
  | some e =>
    rw [hfind] at hv
    simp at hv
    have hmem := List.mem_of_find?_eq_some hfind
    have hdeep := noNoneValues_entries d h e hmem
    intro hcon
    rw [hv, hcon] at hdeep
    exact absurd hdeep (by simp [PyObj.deepNotNone])

theorem specFirstMatch_cons_skip (key name : PyString) (value : PyObj) (rest : PyDict)
    (hne : (name == key) = false)
    (hobj : (preorderEntriesObj value).find? (fun e => e.1 == key) = Option.none) :
    specFirstMatch key (PyDict.cons name value rest) = specFirstMatch key rest := by
  simp [specFirstMatch, preorderEntries, List.find?_cons, hne, List.find?_append, hobj]

theorem specFirstMatch_cons_found (key name : PyString) (value : PyObj)
    (rest : PyDict) (hne : (name == key) = false) (e : PyString × PyObj)
    (hobj : (preorderEntriesObj value).find? (fun e => e.1 == key) = some e) :
    specFirstMatch key (PyDict.cons name value rest) = some e.2 := by
  simp [specFirstMatch, preorderEntries, List.find?_cons, hne, List.find?_append, hobj]

/-- Claim C6 (amended): for nested dictionaries that store no `None` value,
`get_value_from_dict` returns the value of the first entry, in depth-first
iteration-order traversal descending only into mapping values, whose key
equals the searched key, and `None` when no entry matches.  (With stored
`None` values the traversal claim fails: a nested match whose retrieved value
is `None` is treated as absent and the search continues.) -/
theorem get_value_from_dict_spec (key : PyString) (d : PyDict)
    (h : d.noNoneValues = true) :
    get_value_from_dict key d = (specFirstMatch key d).getD PyObj.none := by
  revert h
  induction d using get_value_from_dict.induct key with
  | case1 =>
    intro _
    simp [get_value_from_dict, specFirstMatch, preorderEntries]
  | case2 value rest =>
    intro _
    rw [get_value_from_dict.eq_def]
    simp [specFirstMatch, preorderEntries, List.find?_cons]
  | case3 name rest hne d hrec ihd ihrest =>
    intro hno
    rw [PyDict.noNoneValues, Bool.and_eq_true] at hno
    have hd : d.noNoneValues = true := hno.1
    have hbeq : (name == key) = false := by
      simp only [beq_eq_false_iff_ne, ne_eq]
      exact hne
    have hspecd : specFirstMatch key d = Option.none := by
      rcases hspec : specFirstMatch key d with _ | v
      · rfl
      · exfalso
        have hv := ihd hd
        rw [hrec, hspec] at hv
        simp at hv
        exact specFirstMatch_not_none key d hd v hspec hv.symm
    have hobj : (preorderEntriesObj (PyObj.dict d)).find? (fun e => e.1 == key) =
        Option.none := by
      rw [specFirstMatch] at hspecd
      rw [preorderEntriesObj]
      exact Option.map_eq_none.mp hspecd
    have hLHS : get_value_from_dict key (PyDict.cons name (PyObj.dict d) rest) =
        get_value_from_dict key rest := by
      simp [get_value_from_dict, hne, hrec]
    rw [hLHS, specFirstMatch_cons_skip key name (PyObj.dict d) rest hbeq hobj]
    exact ihrest hno.2
  | case4 name rest hne d hnrec ihd =>
    intro hno
    rw [PyDict.noNoneValues, Bool.and_eq_true] at hno
    have hd : d.noNoneValues = true := hno.1
    have hbeq : (name == key) = false := by
      simp only [beq_eq_false_iff_ne, ne_eq]
      exact hne
    have hgd := ihd hd
    rcases hspec : specFirstMatch key d with _ | v
    · exfalso
      rw [hspec] at hgd
      simp at hgd
      exact hnrec hgd
    · rw [hspec] at hgd
      simp at hgd
      have hvne := specFirstMatch_not_none key d hd v hspec
      obtain ⟨e, hfind, he2⟩ : ∃ e, (preorderEntries d).find? (fun e => e.1 == key) =
          some e ∧ e.2 = v := by
        rw [specFirstMatch] at hspec
        rcases hf : (preorderEntries d).find? (fun e => e.1 == key) with _ | e
        · rw [hf] at hspec; simp at hspec
        · rw [hf] at hspec; simp at hspec; exact ⟨e, hf, hspec⟩
      have hobj : (preorderEntriesObj (PyObj.dict d)).find? (fun e => e.1 == key) =
          some e := by
        rw [preorderEntriesObj]; exact hfind
      rw [specFirstMatch_cons_found key name (PyObj.dict d) rest hbeq e hobj]
      have hLHS : get_value_from_dict key (PyDict.cons name (PyObj.dict d) rest) =
          get_value_from_dict key d := by
        match v, hvne, hgd with
        | .int n, _, hgd => simp [get_value_from_dict, hne, hgd]
        | .str s, _, hgd => simp [get_value_from_dict, hne, hgd]
        | .dict dd, _, hgd => simp [get_value_from_dict, hne, hgd]
      rw [hLHS, hgd, he2]
      simp
  | case5 name value rest hne hnotdict ihrest =>
    intro hno
    rw [PyDict.noNoneValues, Bool.and_eq_true] at hno
    have hbeq : (name == key) = false := by
      simp only [beq_eq_false_iff_ne, ne_eq]
      exact hne
    match value, hnotdict, hno with
    | .none, _, hno =>
      exact absurd hno.1 (by simp [PyObj.deepNotNone])
    | .int n, _, hno =>
      have hLHS : get_value_from_dict key (PyDict.cons name (PyObj.int n) rest) =
          get_value_from_dict key rest := by
        simp [get_value_from_dict, hne]
      rw [hLHS, specFirstMatch_cons_skip key name (PyObj.int n) rest hbeq
        (by simp [preorderEntriesObj])]
      exact ihrest hno.2
    | .str s, _, hno =>
      have hLHS : get_value_from_dict key (PyDict.cons name (PyObj.str s) rest) =
          get_value_from_dict key rest := by
        simp [get_value_from_dict, hne]
      rw [hLHS, specFirstMatch_cons_skip key name (PyObj.str s) rest hbeq
        (by simp [preorderEntriesObj])]
      exact ihrest hno.2
    | .dict dd, hnotdict, _ =>
      exact absurd rfl (hnotdict dd)

/-- Witness for C6: on the `None`-free dictionary `{"a": {"b": {"x": 5}}}`
the search matches the spec's traversal and finds `5`; a missing key yields
the absence sentinel. -/
theorem get_value_from_dict_spec_witness :
    get_value_from_dict (pyStr "x") c6WitnessDict =
      (specFirstMatch (pyStr "x") c6WitnessDict).getD PyObj.none ∧
    get_value_from_dict (pyStr "x") c6WitnessDict = PyObj.int 5 ∧
    get_value_from_dict (pyStr "missing") c6WitnessDict = PyObj.none :=
  ⟨get_value_from_dict_spec (pyStr "x") c6WitnessDict rfl, rfl, rfl⟩

/-- Counterexample for C6 as stated: on `{"a": {"x": None}, "x": 5}` the first
entry in traversal order with key `"x"` is the nested one with value `None`,
yet the code returns `5` — a nested `None`-valued match is skipped, so the
result is not the first matching entry's value. -/
theorem get_value_from_dict_cex :
    get_value_from_dict (pyStr "x") c6CexDict = PyObj.int 5 ∧
    specFirstMatch (pyStr "x") c6CexDict = some PyObj.none ∧
    PyObj.int 5 ≠ (some PyObj.none).getD PyObj.none :=
  ⟨rfl, rfl, fun h => PyObj.noConfusion h⟩

theorem ddLookup_ddSet : ∀ (d : AddrDict) (k : PyString) (v : List Addr),
    ddLookup (ddSet d k v) k = v := by
  intro d k v
  rw [ddSet]
  by_cases hany : d.any (fun e => e.1 == k) = true
  · rw [if_pos hany]
    induction d with
    | nil => simp at hany
    | cons e rest ih =>
      simp only [List.any_cons, Bool.or_eq_true] at hany
      rw [List.map_cons]
      by_cases hek : (e.1 == k) = true
      · simp only [if_pos hek]
        simp [ddLookup, List.find?_cons]
      · simp only [if_neg hek]
        rw [ddLookup, List.find?_cons]
        rw [Bool.not_eq_true] at hek
        rw [hek]
        have hany' : rest.any (fun e => e.1 == k) = true := by
          rcases hany with h | h
          · exact absurd h (by rw [hek]; exact Bool.false_ne_true)
          · exact h
        exact ih hany'
  · rw [if_neg hany]
    have hfind : d.find? (fun e => e.1 == k) = Option.none := by
      rw [List.find?_eq_none]
      intro x hx hpx
      exact hany (List.any_eq_true.mpr ⟨x, hx, hpx⟩)
    rw [ddLookup, List.find?_append, hfind, Option.none_or]
    simp [List.find?_cons]

theorem ddLookup_ddAppendAddr (d : AddrDict) (k : PyString) (a : Addr) :
    ddLookup (ddAppendAddr d k a) k = ddLookup d k ++ [a] := by
  rw [ddAppendAddr, ddLookup_ddSet]

theorem synthV4Loop_lookup (a : Nat) (key : PyString) :
    ∀ (rem val : Nat) (h : AddrDict), a + val + rem ≤ ipv4Max →
      ∃ h', synthV4Loop (some a) key val rem h = .ok h' ∧
        ddLookup h' key = ddLookup h key ++
          (List.range' (val + 1) rem).map (fun i => Addr.str (ipv4Repr (a + i))) := by
  intro rem
  induction rem with
  | zero =>
    intro val h _
    exact ⟨h, rfl, by simp [List.range']⟩
  | succ rem ih =>
    intro val h hbound
    rw [synthV4Loop]
    rw [if_neg (by omega)]
    obtain ⟨h', hrun, hlook⟩ :=
      ih (val + 1) (ddAppendAddr h key (.str (ipv4Repr (a + (val + 1))))) (by omega)
    refine ⟨h', hrun, ?_⟩
    rw [hlook, ddLookup_ddAppendAddr, List.range'_succ, List.map_cons]
    simp

/-- Claim C4 (amended): for a DNS state whose auxiliary IPv4 base `a`
satisfies `a + u ≤ 255.255.255.255`, `configure_hosts(r, u, 0, 0)` leaves the
primary name's hosts-view IPv4 list equal to the first `r` entries of its
previous value followed by exactly `u` synthetic addresses, the `i`-th being
`str(a + i)` for `i = 1..u`.  (When `a + u` exceeds the address space the
call instead raises `AddressValueError`.) -/
theorem configure_hosts_spec (st : DNSState) (r u a : Nat)
    (ha : st.auxv4 = some a) (hmax : a + u ≤ ipv4Max) :
    ∃ st', configure_hosts st r u 0 0 = .ok st' ∧
      ddLookup st'.hosts_v4 (st.device_name ++ dnsNameSuffix) =
        (ddLookup st.hosts_v4 (st.device_name ++ dnsNameSuffix)).take r ++
          (List.range' 1 u).map (fun i => Addr.str (ipv4Repr (a + i))) := by
  obtain ⟨h4f, hrun, hlook⟩ := synthV4Loop_lookup a (st.device_name ++ dnsNameSuffix) u 0
    (ddSet st.hosts_v4 (st.device_name ++ dnsNameSuffix)
      ((ddLookup st.hosts_v4 (st.device_name ++ dnsNameSuffix)).take r)) (by omega)
  refine ⟨{ st with
      hosts_v4 := h4f,
      hosts_v6 := ddSet st.hosts_v6 (st.device_name ++ dnsNameSuffix)
        ((ddLookup st.hosts_v6 (st.device_name ++ dnsNameSuffix)).take 0) }, ?_, ?_⟩
  · simp only [configure_hosts]
    rw [ha, hrun]
    rfl
  · show ddLookup h4f (st.device_name ++ dnsNameSuffix) = _
    rw [hlook, ddLookup_ddSet]

/-- Witness for C4: the claim's worked example — primary `"10.0.0.1"`,
auxiliary `10.0.0.100`, `r = 1`, `u = 2` — yields exactly
`["10.0.0.1", "10.0.0.101", "10.0.0.102"]`. -/
theorem configure_hosts_spec_witness :
    ∃ st', configure_hosts c4WitnessState 1 2 0 0 = .ok st' ∧
      ddLookup st'.hosts_v4 (c4WitnessState.device_name ++ dnsNameSuffix) =
        [Addr.str (pyStr "10.0.0.1"), Addr.str (pyStr "10.0.0.101"),
         Addr.str (pyStr "10.0.0.102")] := by
  obtain ⟨st', h1, h2⟩ := configure_hosts_spec c4WitnessState 1 2 167772260 rfl (by decide)
  refine ⟨st', h1, ?_⟩
  rw [h2]
  rfl

/-- Counterexample for C4 as stated: with the auxiliary IPv4 base at the top
of the address space and `u = 1`, `configure_hosts` raises
`AddressValueError` computing the synthetic address instead of producing the
claimed list. -/
theorem configure_hosts_cex :
    c4CexState.auxv4 = some ipv4Max ∧
    configure_hosts c4CexState 1 1 0 0 = .error .addressValueError :=
  ⟨rfl, rfl⟩

/-- Claim C10: with no auxiliary IPv4 base, any call with
`unreachable_ipv4 > 0` raises an unguarded `TypeError` (integer offset
applied to `None`); with no auxiliary IPv6 base, any call with
`unreachable_ipv6 > 0` raises an unguarded error; and with both unreachable
counts zero the call succeeds regardless of the auxiliary addresses. -/
theorem configure_hosts_unguarded (st : DNSState) (r4 u4 r6 u6 : Nat) :
    (st.auxv4 = Option.none → 1 ≤ u4 →
      configure_hosts st r4 u4 r6 u6 = .error .typeError) ∧
    (st.auxv6 = Option.none → 1 ≤ u6 →
      ∃ e, configure_hosts st r4 u4 r6 u6 = .error e) ∧
    (u4 = 0 → u6 = 0 → ∃ st', configure_hosts st r4 u4 r6 u6 = .ok st') := by
  refine ⟨?_, ?_, ?_⟩
  · intro ha hu
    match u4, hu with
    | rem + 1, _ =>
      simp only [configure_hosts]
      rw [ha]
      rfl
  · intro ha hu
    match u6, hu with
    | rem6 + 1, _ =>
      simp only [configure_hosts]
      rcases hv4 : synthV4Loop st.auxv4 (st.device_name ++ dnsNameSuffix) 0 u4
          (ddSet st.hosts_v4 (st.device_name ++ dnsNameSuffix)
            ((ddLookup st.hosts_v4 (st.device_name ++ dnsNameSuffix)).take r4)) with
        e | h4f
      · exact ⟨e, rfl⟩
      · refine ⟨.typeError, ?_⟩
        rw [ha]
        rfl
  · intro h4 h6
    subst h4
    subst h6
    simp only [configure_hosts]
    exact ⟨_, rfl⟩

/-- Witness for C10: on an instance with no auxiliary addresses,
`unreachable_ipv4 = 1` raises `TypeError`, while both counts zero
succeeds. -/
theorem configure_hosts_unguarded_witness :
    configure_hosts c10WitnessState 0 1 0 0 = .error .typeError ∧
    (∃ st', configure_hosts c10WitnessState 3 0 3 0 = .ok st') :=
  ⟨(configure_hosts_unguarded c10WitnessState 0 1 0 0).1 rfl (by decide),
   (configure_hosts_unguarded c10WitnessState 3 0 3 0).2.2 rfl rfl⟩

theorem pyIndex_zero {α : Type} (x0 : α) (l : List α) : pyIndex (x0 :: l) 0 = .ok x0 := by
  simp [pyIndex]

theorem pyIndex_one {α : Type} (x0 x1 : α) (l : List α) :
    pyIndex (x0 :: x1 :: l) 1 = .ok x1 := by
  simp [pyIndex]

theorem pyIndex_three {α : Type} (x0 x1 x2 x3 : α) (l : List α) :
    pyIndex (x0 :: x1 :: x2 :: x3 :: l) 3 = .ok x3 := by
  simp [pyIndex]

theorem pyIndex_four {α : Type} (x0 x1 x2 x3 x4 : α) (l : List α) :
    pyIndex (x0 :: x1 :: x2 :: x3 :: x4 :: l) 4 = .ok x4 := by
  simp [pyIndex]

theorem pyIndex_five {α : Type} (x0 x1 x2 x3 x4 x5 : α) (l : List α) :
    pyIndex (x0 :: x1 :: x2 :: x3 :: x4 :: x5 :: l) 5 = .ok x5 := by
  simp [pyIndex]

theorem pyFloat_digits (s : PyString) (hne : s ≠ []) (hd : allDigits s = true)
    (hneg : pyStartsWith s (pyStr "-") = false)
    (hpos : pyStartsWith s (pyStr "+") = false)
    (hsp : pySplit (pyStr ".") s = [s]) :
    pyFloat s = .ok (pyInt s) := by
  simp only [pyFloat, hneg, hpos, Bool.or_self, Bool.false_eq_true, if_false, hsp]
  rw [if_pos ⟨hne, hd⟩, one_mul]

theorem pyFloat_decimal (s ip fp : PyString) (h1 : ip ≠ [] ∨ fp ≠ [])
    (hdip : allDigits ip = true) (hdfp : allDigits fp = true)
    (hneg : pyStartsWith s (pyStr "-") = false)
    (hpos : pyStartsWith s (pyStr "+") = false)
    (hsp : pySplit (pyStr ".") s = [ip, fp]) :
    pyFloat s = .ok ((pyInt ip : ℚ) + (pyInt fp : ℚ) / 10 ^ fp.length) := by
  simp only [pyFloat, hneg, hpos, Bool.or_self, Bool.false_eq_true, if_false, hsp]
  rw [if_pos ⟨h1, hdip, hdfp⟩, one_mul]

/-- Claim C7: for every `[SUM]` line whose units token (field 4,
case-insensitive) is a key of the fixed unit table `{bits=1, bytes=8,
kbits=1024, kbytes=8192, mbits=1048576, mbytes=8388608, gbits=1073741824,
gbytes=8589934592}`, the recorded throughput value equals the parsed numeric
value (field 3) times the unit's table entry divided by the `mbits` entry
`1048576`, rounded to 3 decimal places. -/
theorem collect_logs_unit_normalization (i f1 f2 f3 f4 f5 : PyString)
    (restTokens : List PyString) (lo hi : PyString) (v qlo qhi : ℚ) (m : Nat)
    (hsplit : (pySplit (pyStr " ") i).filter (fun j => j != []) =
      pyStr "[SUM]" :: f1 :: f2 :: f3 :: f4 :: f5 :: restTokens)
    (hdash : pySplit (pyStr "-") f1 = [lo, hi])
    (hlo : pyFloat lo = .ok qlo) (hhi : pyFloat hi = .ok qhi)
    (hv : pyFloat f3 = .ok v)
    (hm : unitsLookup (pyLower f4) = some m) :
    unitsLookup (pyStr "mbits") = some 1048576 ∧
    processSumLine i =
      .ok { sampleType := if qhi - qlo < 2 then pyStr "data" else pyStr "result",
            value := some (hi, pyRound3 (v * (m : ℚ) / (1048576 : ℚ)), f5) } ∧
    unitsTable =
      [(pyStr "bits", 1), (pyStr "bytes", 8), (pyStr "kbits", 1024),
       (pyStr "kbytes", 8192), (pyStr "mbits", 1048576), (pyStr "mbytes", 8388608),
       (pyStr "gbits", 1073741824), (pyStr "gbytes", 8589934592)] := by
  have hmbits : unitsLookup (pyStr "mbits") = some (1048576 : Nat) := by decide
  refine ⟨hmbits, ?_, by decide⟩
  simp only [processSumLine, hsplit, pyIndex_one, hdash, pyIndex_zero, pyIndex_three,
    pyIndex_four, pyIndex_five, hlo, hhi, hv, hm, hmbits, Option.getD_some]
  norm_num

/-- Witness for C7: the worked example — value `8`, unit `"MBytes"` — records
`8 * 8388608 / 1048576 = 64` megabits (a long, 10-second interval, hence a
`"result"` record). -/
theorem collect_logs_unit_normalization_witness :
    processSumLine (pyStr "[SUM] 0.0-10.0 sec 8 MBytes 64.0 Mbits/sec receiver") =
      .ok { sampleType := pyStr "result",
            value := some (pyStr "10.0", 64, pyStr "64.0") } := by
  have hlo : pyFloat (pyStr "0.0") = .ok 0 := by
    rw [pyFloat_decimal (pyStr "0.0") (pyStr "0") (pyStr "0") (Or.inl (by decide))
      (by decide) (by decide) (by decide) (by decide) (by decide)]
    rw [show pyInt (pyStr "0") = 0 from by decide]
    norm_num
  have hhi : pyFloat (pyStr "10.0") = .ok 10 := by
    rw [pyFloat_decimal (pyStr "10.0") (pyStr "10") (pyStr "0") (Or.inl (by decide))
      (by decide) (by decide) (by decide) (by decide) (by decide)]
    rw [show pyInt (pyStr "10") = 10 from by decide, show pyInt (pyStr "0") = 0 from by decide]
    norm_num
  have hv : pyFloat (pyStr "8") = .ok 8 := by
    rw [pyFloat_digits (pyStr "8") (by decide) (by decide) (by decide) (by decide)
      (by decide)]
    rw [show pyInt (pyStr "8") = 8 from by decide]
    norm_num
  have h := (collect_logs_unit_normalization
    (pyStr "[SUM] 0.0-10.0 sec 8 MBytes 64.0 Mbits/sec receiver")
    (pyStr "0.0-10.0") (pyStr "sec") (pyStr "8") (pyStr "MBytes") (pyStr "64.0")
    [pyStr "Mbits/sec", pyStr "receiver"] (pyStr "0.0") (pyStr "10.0")
    8 0 10 8388608 (by decide) (by decide) hlo hhi hv (by decide)).2.1
  rw [h, if_neg (by norm_num)]
  have hr : pyRound3 ((8 : ℚ) * ((8388608 : Nat) : ℚ) / (1048576 : ℚ)) = 64 := by
    norm_num [pyRound3, roundHalfEven]
  rw [hr]

theorem mem_insertSorted (x y : PyString) (l : List PyString) :
    x ∈ insertSorted y l ↔ x = y ∨ x ∈ l := by
  induction l with
  | nil => simp [insertSorted]
  | cons z zs ih =>
    rw [insertSorted]
    by_cases h : pyStrLt z y = true
    · rw [if_pos h]
      simp only [List.mem_cons, ih]
      tauto
    · rw [if_neg h]
      simp only [List.mem_cons]

theorem mem_pySorted (x : PyString) (l : List PyString) :
    x ∈ pySorted l ↔ x ∈ l := by
  have haux : ∀ (l acc : List PyString),
      x ∈ l.foldl (fun acc x => insertSorted x acc) acc ↔ x ∈ acc ∨ x ∈ l := by
    intro l
    induction l with
    | nil => intro acc; simp
    | cons z zs ih =>
      intro acc
      rw [List.foldl_cons, ih, mem_insertSorted]
      simp only [List.mem_cons]
      tauto
  rw [pySorted, haux]
  simp

theorem length_insertSorted (y : PyString) (l : List PyString) :
    (insertSorted y l).length = l.length + 1 := by
  induction l with
  | nil => rfl
  | cons z zs ih =>
    rw [insertSorted]
    by_cases h : pyStrLt z y = true
    · rw [if_pos h]
      simp [ih]
    · rw [if_neg h]
      simp

theorem length_pySorted (l : List PyString) : (pySorted l).length = l.length := by
  have haux : ∀ (l acc : List PyString),
      (l.foldl (fun acc x => insertSorted x acc) acc).length = acc.length + l.length := by
    intro l
    induction l with
    | nil => intro acc; simp
    | cons z zs ih =>
      intro acc
      rw [List.foldl_cons, ih, length_insertSorted]
      simp only [List.length_cons]
      omega
  rw [pySorted, haux]
  simp

theorem tableRows_ok (devices_dict : DevicesDict) :
    ∀ (names : List PyString) (i : Nat),
      (∀ n ∈ names, (dictGet devices_dict n).isSome = true) →
      ∃ rows, tableRows devices_dict names i = .ok rows := by
  intro names
  induction names with
  | nil => intro i _; exact ⟨[], rfl⟩
  | cons name rest ih =>
    intro i hall
    have h1 := hall name (List.mem_cons_self name rest)
    obtain ⟨dev, hdev⟩ := Option.isSome_iff_exists.mp h1
    obtain ⟨rows, hrows⟩ := ih (i + 1) (fun n hn => hall n (List.mem_cons_of_mem name hn))
    exact ⟨_, by rw [tableRows, hdev, hrows]⟩

/-- Claim C1 (amended): for every non-empty device environment and every
input that is not the exit code `"q"`: if the input is non-numeric, or is a
number strictly greater than the number of listed devices, then no device is
selected, an inline error message is printed, and the outer loop continues
and reprompts.  (Unlike the claim as stated, the out-of-range number `0` is
not rejected: `device_names[0 - 1]` selects the last listed device by
Python's negative indexing, and its console is entered.) -/
theorem device_prompt_spec (devices_dict : DevicesDict) (input : PyString)
    (hne : devices_dict ≠ []) (hq : input ≠ pyStr "q")
    (hbad : pyIsDigit input = false ∨ devices_dict.length < pyInt input) :
    ∃ prints,
      get_device_name_from_user devices_dict (pyStr "q") input =
        .ok (Option.none, prints) ∧
      (errWrongInput ∈ prints ∨ errWrongDeviceId ∈ prints) ∧
      ∀ cin, boardfarm_post_deploy_step devices_dict input cin =
        (.continueLoop, prints) := by
  have hlookup : ∀ n ∈ pySorted (devices_dict.map (fun e => e.1)),
      (dictGet devices_dict n).isSome = true := by
    intro n hn
    rw [mem_pySorted] at hn
    obtain ⟨e, he, hen⟩ := List.mem_map.mp hn
    have hfs : (devices_dict.find? (fun e => e.1 == n)).isSome = true :=
      List.find?_isSome.mpr ⟨e, he, by rw [beq_iff_eq]; exact hen⟩
    rw [dictGet]
    rcases hf : devices_dict.find? (fun e => e.1 == n) with _ | e'
    · rw [hf] at hfs
      exact absurd hfs (by simp)
    · rw [hf]
      rfl
  obtain ⟨rows, hrows⟩ := tableRows_ok devices_dict _ 1 hlookup
  have hqbeq : (input == pyStr "q") = false := beq_eq_false_iff_ne.mpr hq
  have hlen : (pySorted (devices_dict.map (fun e => e.1))).length =
      devices_dict.length := by
    rw [length_pySorted, List.length_map]
  suffices h : ∃ prints,
      get_device_name_from_user devices_dict (pyStr "q") input =
        .ok (Option.none, prints) ∧
      (errWrongInput ∈ prints ∨ errWrongDeviceId ∈ prints) by
    obtain ⟨prints, hget, hmem⟩ := h
    refine ⟨prints, hget, hmem, ?_⟩
    intro cin
    rw [boardfarm_post_deploy_step,
      if_neg (by simp only [List.isEmpty_iff]; exact hne), hget]
  rcases hdig : pyIsDigit input with _ | _
  · exact ⟨_,
      by
        simp only [get_device_name_from_user, hrows]
        rw [if_neg (by rw [hqbeq]; exact Bool.false_ne_true)]
        rw [if_pos (by rw [hdig]; rfl)],
      Or.inl (by simp)⟩
  · have hrange : devices_dict.length < pyInt input := by
      rcases hbad with h | h
      · rw [hdig] at h
        exact absurd h (by simp)
      · exact h
    exact ⟨_,
      by
        simp only [get_device_name_from_user, hrows]
        rw [if_neg (by rw [hqbeq]; exact Bool.false_ne_true)]
        rw [if_neg (by rw [hdig]; simp)]
        rw [if_pos (by rw [hlen]; exact hrange)],
      Or.inr (by simp)⟩

/-- Witness for C1: in the two-device environment, the non-numeric input
`"abc"` is rejected with an inline error and the loop continues. -/
theorem device_prompt_spec_witness :
    ∃ prints,
      get_device_name_from_user c1CexDevices (pyStr "q") (pyStr "abc") =
        .ok (Option.none, prints) ∧
      (errWrongInput ∈ prints ∨ errWrongDeviceId ∈ prints) ∧
      ∀ cin, boardfarm_post_deploy_step c1CexDevices (pyStr "abc") cin =
        (.continueLoop, prints) :=
  device_prompt_spec c1CexDevices (pyStr "abc") (by decide) (by decide)
    (Or.inl (by decide))

/-- Counterexample for C1 as stated: `"0"` is numeric but outside the valid
indices `1..2` of the two listed devices, yet instead of an error and a
reprompt, `int("0") - 1 = -1` selects the LAST device (`"b_dev"`) by Python's
negative indexing and its console is entered. -/
theorem device_prompt_cex :
    (boardfarm_post_deploy_step c1CexDevices (pyStr "0") []).1 =
      .enterConsole (pyStr "b_dev") (pyStr "console") ∧
    pyIsDigit (pyStr "0") = true ∧ pyInt (pyStr "0") = 0 ∧
    c1CexDevices.length = 2 :=
  ⟨rfl, rfl, rfl, rfl⟩
